import Mathlib

/-!
Shallow embedding of the porter QUIC relay core (github.com/ewancrowle/porter)
and verification of its specification claims.

Bytes are modelled as `Nat` values (Go `byte` is always `< 256`); byte slices
are `List Nat`.  Where the Go source uses bit operations that coincide with
arithmetic on all naturals (`x >> 6 = x / 64`, `x & 0x3f = x % 64`,
`(v << 8) | b = v * 256 + b` for `b < 256`) the arithmetic form is used so
that proofs can work with `omega`; each such place is commented.  Fallible Go
functions returning `(value, error)` become `Except String` values; places
where the Go code would panic (out-of-range slice or index) are made explicit
with a dedicated `panic` result constructor.
-/

deriving instance DecidableEq for Except

namespace Porter

/-- Go slice expression `l[a:b]` (for `a ≤ b ≤ len l`). -/
def slice (l : List Nat) (a b : Nat) : List Nat :=
  (l.drop a).take (b - a)

/-! ## VarInt codec — `ReadVarInt` (internal/quic, unnamed part_001 lines 172–192) -/

/-- Embedding of `ReadVarInt(data []byte) (uint64, int, error)`.
`data[0] >> 6` is written `data[0] / 64` and `data[0] & 0x3f` is written
`data[0] % 64` (equal for every natural); the accumulation
`val = val<<8 | data[i]` is written `val * 256 + data[i]`, equal for bytes. -/
def ReadVarInt (data : List Nat) : Except String (Nat × Nat) :=
  if data.length = 0 then .error "data too short"
  else
    let pfx := data.getD 0 0 / 64
    let len := 1 <<< pfx
    if data.length < len then .error "data too short for varint"
    else
      let val := ((data.take len).drop 1).foldl (fun acc b => acc * 256 + b)
        (data.getD 0 0 % 64)
      .ok (val, len)

/-- Modelled from the spec: the canonical QUIC variable-length integer
encoding (spec §4.1 / property 5's `encode`), which has no counterpart under
`src/`.  The top two bits of byte 0 select the shortest length (1/2/4/8) that
can hold the value, the remaining 6 bits are the high bits of the value,
followed by big-endian continuation bytes. -/
def encodeVarInt (v : Nat) : List Nat :=
  if v < 64 then [v]
  else if v < 16384 then [64 + v / 256, v % 256]
  else if v < 1073741824 then
    [128 + v / 16777216, v / 65536 % 256, v / 256 % 256, v % 256]
  else
    [192 + v / 72057594037927936, v / 281474976710656 % 256,
     v / 1099511627776 % 256, v / 4294967296 % 256, v / 16777216 % 256,
     v / 65536 % 256, v / 256 % 256, v % 256]

/-! ## Packet parser — `ParsePacket` (internal/quic/decrypt.go lines 65–182) -/

/-- Result of a Go function that can also crash: `ok` and `err` mirror the
`(value, error)` return, `panic` marks inputs on which the Go code raises a
runtime panic (index or slice bound violation). -/
inductive PResult (α : Type) where
  | ok (a : α)
  | err (msg : String)
  | panic (msg : String)
deriving DecidableEq, Repr

/-- Embedding of `type ParsedHeader struct` (decrypt.go lines 65–75).
`ptype` is the Go field `Type`; `packetNumber` is never written by
`ParsePacket` and keeps its zero value. -/
structure ParsedHeader where
  isLongHeader : Bool
  ptype : Nat
  version : Nat
  dcid : List Nat
  scid : List Nat
  packetNumber : Int := 0
  payload : List Nat
  rawHeader : List Nat
  fullLength : Nat
deriving DecidableEq, Repr

/-- Initial branch of `ParsePacket` (decrypt.go lines 118–142), entered with
the cursor `c3` just past the SCID and `base` holding the already-parsed
header fields: read the token-length varint, skip the token, read the
payload-length varint, then slice the payload. -/
def finishInitial (data : List Nat) (base : ParsedHeader) (c3 : Nat) :
    PResult ParsedHeader :=
  match ReadVarInt (data.drop c3) with
  | .error e => .err ("invalid token length: " ++ e)
  | .ok (tokenLen, n) =>
    if data.length < c3 + n + tokenLen then .err "insufficient data for token"
    else
      match ReadVarInt (data.drop (c3 + n + tokenLen)) with
      | .error e => .err ("invalid payload length: " ++ e)
      | .ok (payloadLen, n2) =>
        let c6 := c3 + n + tokenLen + n2
        if data.length < c6 + payloadLen then
          .err "insufficient data for payload"
        else
          .ok { base with payload := slice data c6 (c6 + payloadLen),
                          rawHeader := data.take c6,
                          fullLength := c6 + payloadLen }

/-- 0-RTT/Handshake/Retry branch of `ParsePacket` (decrypt.go lines
143–162), entered with the cursor `c3` just past the SCID: opportunistically
read a payload-length varint; when it parses and the indicated payload fits,
split there, otherwise take the whole remainder (`FullLength = len(data)`). -/
def finishWithLength (data : List Nat) (base : ParsedHeader) (c3 : Nat) :
    PResult ParsedHeader :=
  match ReadVarInt (data.drop c3) with
  | .ok (payloadLen, n) =>
    if c3 + n + payloadLen ≤ data.length then
      .ok { base with payload := slice data (c3 + n) (c3 + n + payloadLen),
                      rawHeader := data.take (c3 + n),
                      fullLength := c3 + n + payloadLen }
    else
      .ok { base with payload := data.drop (c3 + n),
                      rawHeader := data.take (c3 + n),
                      fullLength := data.length }
  | .error _ =>
    .ok { base with payload := data.drop c3, rawHeader := data.take c3,
                    fullLength := data.length }

/-- Long-header body of `ParsePacket` after the version check (decrypt.go
lines 101–167): read the DCID-length byte, DCID, SCID-length byte and SCID,
then dispatch on the packet type.  Reading `data[curr]` when
`curr = len(data)` is a Go index panic, made explicit here (the `≤` guards). -/
def parseLongBody (data : List Nat) (ptype version : Nat) : PResult ParsedHeader :=
  if data.length ≤ 5 then .panic "index out of range"
  else
    let dcidLen := data.getD 5 0
    if data.length < 6 + dcidLen then .err "insufficient data for DCID"
    else
      if data.length ≤ 6 + dcidLen then .panic "index out of range"
      else
        let scidLen := data.getD (6 + dcidLen) 0
        if data.length < 7 + dcidLen + scidLen then
          .err "insufficient data for SCID"
        else
          let base : ParsedHeader :=
            { isLongHeader := true, ptype := ptype, version := version,
              dcid := slice data 6 (6 + dcidLen),
              scid := slice data (7 + dcidLen) (7 + dcidLen + scidLen),
              payload := [], rawHeader := [], fullLength := 0 }
          let c3 := 7 + dcidLen + scidLen
          if ptype = 0 then finishInitial data base c3
          else if ptype = 1 ∨ ptype = 2 ∨ ptype = 3 then
            finishWithLength data base c3
          else
            -- dead code: the two type bits always yield 0–3
            .ok { base with payload := data.drop c3,
                            rawHeader := data.take c3,
                            fullLength := data.length }

/-- Embedding of `ParsePacket(data []byte) (*ParsedHeader, error)`
(decrypt.go lines 77–182), branch for branch.  The version word is the
big-endian `Uint32` of `data[1:5]`; the long-header test `data[0]&0x80 != 0`
and the type extraction `(data[0]&0x30)>>4` keep their bitwise form.  Go
panics are explicit; in particular the short-header branch evaluates
`data[1:9]` unconditionally, which panics whenever the slice capacity is
below 9 — in the listener path the capacity equals `len(data)`, so every
short-header input of fewer than 9 bytes panics instead of returning an
error. -/
def ParsePacket (data : List Nat) : PResult ParsedHeader :=
  if data.length < 1 then .err "packet too short"
  else if data.getD 0 0 &&& 0x80 ≠ 0 then
    if data.length < 5 then .err "long header too short"
    else
      let version :=
        ((data.getD 1 0 * 256 + data.getD 2 0) * 256 + data.getD 3 0) * 256
          + data.getD 4 0
      if version ≠ 1 then
        if version = 0 then .err "version negotiation packet"
        else .err "unsupported QUIC version"
      else parseLongBody data ((data.getD 0 0 &&& 0x30) >>> 4) version
  else
    if data.length < 9 then .panic "slice bounds out of range"
    else
      .ok { isLongHeader := false, ptype := 0, version := 0,
            dcid := slice data 1 9, scid := [], payload := [],
            rawHeader := [], fullLength := data.length }

/-! ## CRYPTO reassembly — `CryptoAssembler.HandleFrame`
(internal/quic, unnamed part_001 lines 109–170) -/

/-- Embedding of `type CryptoAssembler struct { buffer []byte; offset uint64 }`.
The varint-decoded offsets are below `2^62`, so the `uint64` arithmetic of the
source never wraps on reachable states and plain `Nat` is exact. -/
structure CryptoAssembler where
  buffer : List Nat
  offset : Nat
deriving DecidableEq, Repr

/-- Embedding of `(ca *CryptoAssembler) HandleFrame(data []byte) ([]byte, error)`.
The Go method mutates `ca` in place and returns `(ca.buffer, nil)` on success,
`(nil, nil)` when `data` is not a CRYPTO frame, and `(nil, err)` on failure
(leaving `ca` untouched); here the new assembler state is returned alongside
the `[]byte` result, with `none` standing for the `(nil, nil)` case. -/
def HandleFrame (ca : CryptoAssembler) (data : List Nat) :
    Except String (CryptoAssembler × Option (List Nat)) :=
  if data.length < 1 ∨ data.getD 0 0 ≠ 0x06 then .ok (ca, none)
  else
    match ReadVarInt (data.drop 1) with
    | .error e => .error ("invalid offset in CRYPTO frame: " ++ e)
    | .ok (offset, n1) =>
      match ReadVarInt (data.drop (1 + n1)) with
      | .error e => .error ("invalid length in CRYPTO frame: " ++ e)
      | .ok (length, n2) =>
        let curr := 1 + n1 + n2
        if data.length < curr + length then .error "CRYPTO frame data too short"
        else
          let frameData := slice data curr (curr + length)
          if offset = ca.offset then
            .ok ({ buffer := ca.buffer ++ frameData,
                   offset := ca.offset + length },
                 some (ca.buffer ++ frameData))
          else if offset < ca.offset then
            if offset + length > ca.offset then
              let overlap := ca.offset - offset
              .ok ({ buffer := ca.buffer ++ frameData.drop overlap,
                     offset := offset + length },
                   some (ca.buffer ++ frameData.drop overlap))
            else .ok (ca, some ca.buffer)
          else
            .error ("out of order CRYPTO frame: expected " ++
              toString ca.offset ++ ", got " ++ toString offset)

/-- Embedding of `NewCryptoAssembler()`. -/
def NewCryptoAssembler : CryptoAssembler := { buffer := [], offset := 0 }

/-! ## ClientHello SNI scan — `ExtractSNIFromClientHello`
(internal/quic, unnamed part_001 lines 194–292).  The SNI is kept as its raw
bytes (Go converts them to a `string` at the end).  The two index-walking
`for` loops become recursions on an explicit iteration budget; each Go
iteration advances its cursor by at least 3 (inner) or 4 (outer) positions
below a fixed bound, so a budget of the bound plus one is never exhausted. -/

/-- Inner loop of `ExtractSNIFromClientHello` over the server-name list
(lines 271–286): `ok (some name)` models the `return` of a host name,
`ok none` models falling out of the loop. -/
def sniNameWalk (sniData : List Nat) (sniListLen : Nat) :
    Nat → Nat → Except String (Option (List Nat))
  | 0, _ => .ok none
  | fuel + 1, subCurr =>
    if subCurr < 2 + sniListLen then
      if 2 + sniListLen < subCurr + 3 then .ok none
      else
        let nameType := sniData.getD subCurr 0
        let nameLen := sniData.getD (subCurr + 1) 0 * 256 +
          sniData.getD (subCurr + 2) 0
        if nameType = 0 then
          if 2 + sniListLen < subCurr + 3 + nameLen then
            .error "SNI name truncated"
          else .ok (some (slice sniData (subCurr + 3) (subCurr + 3 + nameLen)))
        else sniNameWalk sniData sniListLen fuel (subCurr + 3 + nameLen)
    else .ok none

/-- Outer extension-walking loop of `ExtractSNIFromClientHello`
(lines 246–289), ending in the final `return "", errors.New("SNI not found")`. -/
def extensionWalk (data : List Nat) (extensionsEnd : Nat) :
    Nat → Nat → Except String (List Nat)
  | 0, _ => .error "SNI not found"
  | fuel + 1, curr =>
    if curr < extensionsEnd then
      if extensionsEnd < curr + 4 then .error "SNI not found"
      else
        let extType := data.getD curr 0 * 256 + data.getD (curr + 1) 0
        let extLen := data.getD (curr + 2) 0 * 256 + data.getD (curr + 3) 0
        if extType = 0 then
          if extensionsEnd < curr + 4 + extLen then
            .error "SNI extension truncated"
          else
            let sniData := slice data (curr + 4) (curr + 4 + extLen)
            if sniData.length < 2 then .error "invalid SNI extension data"
            else
              let sniListLen := sniData.getD 0 0 * 256 + sniData.getD 1 0
              if sniData.length < 2 + sniListLen then .error "SNI list truncated"
              else
                match sniNameWalk sniData sniListLen (2 + sniListLen + 1) 2 with
                | .error e => .error e
                | .ok (some name) => .ok name
                | .ok none => extensionWalk data extensionsEnd fuel (curr + 4 + extLen)
        else extensionWalk data extensionsEnd fuel (curr + 4 + extLen)
    else .error "SNI not found"

/-- Embedding of `ExtractSNIFromClientHello(data []byte) (string, error)`
(lines 194–292): the fixed ClientHello prefix is skipped with the source's
cascade of length checks, then the extensions are walked. -/
def ExtractSNIFromClientHello (data : List Nat) : Except String (List Nat) :=
  if data.length < 4 then .error "too short for TLS Handshake"
  else if data.getD 0 0 ≠ 0x01 then .error "not a ClientHello"
  else if data.length < 6 then .error "too short for Version"
  else if data.length < 38 then .error "too short for Random"
  else if data.length < 39 then .error "too short for Legacy Session ID"
  else
    let sidLen := data.getD 38 0
    let c1 := 39 + sidLen
    if data.length < c1 + 2 then .error "too short for Cipher Suites"
    else
      let csLen := data.getD c1 0 * 256 + data.getD (c1 + 1) 0
      let c2 := c1 + 2 + csLen
      if data.length < c2 + 1 then .error "too short for Compression Methods"
      else
        let cmLen := data.getD c2 0
        let c3 := c2 + 1 + cmLen
        if data.length < c3 + 2 then .error "no extensions"
        else
          let extensionsLen := data.getD c3 0 * 256 + data.getD (c3 + 1) 0
          let extensionsEnd := c3 + 2 + extensionsLen
          if data.length < extensionsEnd then .error "extensions truncated"
          else extensionWalk data extensionsEnd (extensionsEnd + 1) (c3 + 2)

/-! ## SNI extraction from an Initial packet — `ExtractSNI`
(internal/strategy, unnamed part: `quic.ExtractSNI`, strategy.go lines 49–97).
The AEAD decryption step (`DecryptInitialPacket`) is bit-level AES-GCM and is
abstracted as a `decrypt` oracle argument; everything around it — the parse,
the Initial check, the error wiring and the CRYPTO-frame scan loop — is
embedded from the source. -/

/-- Frame-scanning loop of `ExtractSNI` (lines 69–94) over the decrypted
payload: a byte equal to `0x06` is handed to `HandleFrame`; on a `HandleFrame`
error the loop advances one byte and continues (`curr++; continue`); on
success it tries `ExtractSNIFromClientHello` on the assembled buffer and, if
that fails, also advances one byte; any other byte is skipped.  Falling off
the end yields the function's final `SNI not found` error. -/
def scanCryptoFrames (ca : CryptoAssembler) :
    List Nat → Except String (List Nat)
  | [] => .error "SNI not found in decrypted Initial packet"
  | b :: rest =>
    if b = 0x06 then
      match HandleFrame ca (b :: rest) with
      | .error _ => scanCryptoFrames ca rest
      | .ok (ca2, none) => scanCryptoFrames ca2 rest
      | .ok (ca2, some assembled) =>
        match ExtractSNIFromClientHello assembled with
        | .ok sni => .ok sni
        | .error _ => scanCryptoFrames ca2 rest
    else scanCryptoFrames ca rest

/-- Embedding of `ExtractSNI(data []byte) (string, error)` (strategy part,
lines 49–97), with `DecryptInitialPacket(data, header.DCID)` abstracted as
the `decrypt` oracle.  A parser panic propagates (it would crash the Go
process). -/
def ExtractSNI (decrypt : List Nat → Except String (List Nat))
    (data : List Nat) : PResult (List Nat) :=
  match ParsePacket data with
  | .err e => .err e
  | .panic e => .panic e
  | .ok header =>
    if ¬(header.isLongHeader = true ∧ header.ptype = 0) then
      .err "not a QUIC Initial packet"
    else
      match decrypt data with
      | .error e => .err ("failed to decrypt Initial packet: " ++ e)
      | .ok decrypted =>
        match scanCryptoFrames NewCryptoAssembler decrypted with
        | .ok sni => .ok sni
        | .error e => .err e

/-! ## Initial key derivation — `deriveInitialKeys` / `deriveSecret` /
`setupKeys` (internal/quic/decrypt.go lines 15–63).  The Go code calls
`crypto/sha256` and `golang.org/x/crypto/hkdf`; those library primitives are
embedded below (SHA-256 per FIPS 180-4, HMAC per RFC 2104, HKDF per RFC 5869,
which is what `hkdf.Extract` / `hkdf.Expand` implement).  Words are naturals
kept below `2^32` by explicit `% 4294967296`. -/

/-- Right rotation of a 32-bit word: `x >>> n | x <<< (32-n)` written
arithmetically. -/
def rotr32 (x n : Nat) : Nat :=
  (x / 2 ^ n + x % 2 ^ n * 2 ^ (32 - n)) % 4294967296

/-- SHA-256 `Ch(x,y,z) = (x AND y) XOR ((NOT x) AND z)`; the 32-bit
complement of `x < 2^32` is `4294967295 ^^^ x`. -/
def sha256Ch (x y z : Nat) : Nat := (x &&& y) ^^^ ((4294967295 ^^^ x) &&& z)

/-- SHA-256 `Maj(x,y,z)`. -/
def sha256Maj (x y z : Nat) : Nat := (x &&& y) ^^^ (x &&& z) ^^^ (y &&& z)

/-- SHA-256 `Σ0`. -/
def bigSigma0 (x : Nat) : Nat := rotr32 x 2 ^^^ rotr32 x 13 ^^^ rotr32 x 22

/-- SHA-256 `Σ1`. -/
def bigSigma1 (x : Nat) : Nat := rotr32 x 6 ^^^ rotr32 x 11 ^^^ rotr32 x 25

/-- SHA-256 `σ0` (the shift `x >> 3` is `x / 8`). -/
def smallSigma0 (x : Nat) : Nat := rotr32 x 7 ^^^ rotr32 x 18 ^^^ x / 8

/-- SHA-256 `σ1` (the shift `x >> 10` is `x / 1024`). -/
def smallSigma1 (x : Nat) : Nat := rotr32 x 17 ^^^ rotr32 x 19 ^^^ x / 1024

/-- SHA-256 round constants K₀..K₆₃ (FIPS 180-4 §4.2.2), in decimal
(K₀ = 0x428a2f98 = 1116352408 and so on through K₆₃ = 0xc67178f2). -/
def sha256K : List Nat :=
  [1116352408, 1899447441, 3049323471, 3921009573, 961987163,
   1508970993, 2453635748, 2870763221, 3624381080, 310598401,
   607225278, 1426881987, 1925078388, 2162078206, 2614888103,
   3248222580, 3835390401, 4022224774, 264347078, 604807628,
   770255983, 1249150122, 1555081692, 1996064986, 2554220882,
   2821834349, 2952996808, 3210313671, 3336571891, 3584528711,
   113926993, 338241895, 666307205, 773529912, 1294757372,
   1396182291, 1695183700, 1986661051, 2177026350, 2456956037,
   2730485921, 2820302411, 3259730800, 3345764771, 3516065817,
   3600352804, 4094571909, 275423344, 430227734, 506948616,
   659060556, 883997877, 958139571, 1322822218, 1537002063,
   1747873779, 1955562222, 2024104815, 2227730452, 2361852424,
   2428436474, 2756734187, 3204031479, 3329325298]

/-- SHA-256 initial hash value H⁽⁰⁾ (FIPS 180-4 §5.3.3), in decimal
(H₀ = 0x6a09e667 = 1779033703 through H₇ = 0x5be0cd19). -/
def sha256H0 : List Nat :=
  [1779033703, 3144134277, 1013904242, 2773480762,
   1359893119, 2600822924, 528734635, 1541459225]

/-- Big-endian 4-byte groups to 32-bit words. -/
def bytesToWords : List Nat → List Nat
  | b0 :: b1 :: b2 :: b3 :: rest =>
    (((b0 * 256 + b1) * 256 + b2) * 256 + b3) :: bytesToWords rest
  | _ => []

/-- 32-bit words to big-endian bytes. -/
def wordsToBytes : List Nat → List Nat
  | w :: rest =>
    w / 16777216 % 256 :: w / 65536 % 256 :: w / 256 % 256 :: w % 256 ::
      wordsToBytes rest
  | [] => []

/-- SHA-256 message-schedule extension of the 16 block words to 64. -/
def sha256Schedule (w16 : List Nat) : List Nat :=
  (List.range 48).foldl (fun w _ =>
    let i := w.length
    w ++ [(smallSigma1 (w.getD (i - 2) 0) + w.getD (i - 7) 0 +
           smallSigma0 (w.getD (i - 15) 0) + w.getD (i - 16) 0) % 4294967296])
    w16

/-- SHA-256 compression of one 64-byte block into the running hash (eight
32-bit words). -/
def sha256Compress (h : List Nat) (block : List Nat) : List Nat :=
  let w := sha256Schedule (bytesToWords block)
  let final := (List.range 64).foldl (fun st i =>
    match st with
    | [a, b, c, d, e, f, g, hh] =>
      let t1 := (hh + bigSigma1 e + sha256Ch e f g + sha256K.getD i 0 +
        w.getD i 0) % 4294967296
      let t2 := (bigSigma0 a + sha256Maj a b c) % 4294967296
      [(t1 + t2) % 4294967296, a, b, c, (d + t1) % 4294967296, e, f, g]
    | st => st) h
  List.zipWith (fun x y => (x + y) % 4294967296) h final

/-- SHA-256 padding: `0x80`, zeros to 56 mod 64, 8-byte big-endian bit
length. -/
def sha256Pad (msg : List Nat) : List Nat :=
  let bitLen := 8 * msg.length
  msg ++ 0x80 :: List.replicate ((64 - (msg.length + 9) % 64) % 64) 0 ++
    [bitLen / 72057594037927936 % 256, bitLen / 281474976710656 % 256,
     bitLen / 1099511627776 % 256, bitLen / 4294967296 % 256,
     bitLen / 16777216 % 256, bitLen / 65536 % 256, bitLen / 256 % 256,
     bitLen % 256]

/-- Splits a padded message into 64-byte blocks (the budget argument, one per
remaining byte, dominates the number of blocks). -/
def splitBlocks : Nat → List Nat → List (List Nat)
  | _, [] => []
  | 0, _ => []
  | fuel + 1, l => l.take 64 :: splitBlocks fuel (l.drop 64)

/-- SHA-256 of a byte string. -/
def sha256 (msg : List Nat) : List Nat :=
  let padded := sha256Pad msg
  wordsToBytes ((splitBlocks padded.length padded).foldl sha256Compress sha256H0)

/-- HMAC-SHA-256 (RFC 2104): keys longer than the 64-byte block are hashed
first, then padded with zeros; `0x36`/`0x5c` are the inner/outer pads. -/
def hmacSHA256 (key msg : List Nat) : List Nat :=
  let k := if 64 < key.length then sha256 key else key
  let k0 := k ++ List.replicate (64 - k.length) 0
  sha256 ((k0.map (fun b => b ^^^ 0x5c)) ++
    sha256 ((k0.map (fun b => b ^^^ 0x36)) ++ msg))

/-- Embedding of `hkdf.Extract(sha256.New, secret, salt)` (RFC 5869):
`HMAC-Hash(salt, secret)`. -/
def hkdfExtract (salt secret : List Nat) : List Nat := hmacSHA256 salt secret

/-- HKDF-Expand output blocks `T(1), T(2), …` (RFC 5869):
`T(i) = HMAC(prk, T(i-1) ‖ info ‖ [i])`. -/
def hkdfBlocks (prk info : List Nat) : Nat → Nat → List Nat → List Nat
  | 0, _, _ => []
  | n + 1, counter, prev =>
    let t := hmacSHA256 prk (prev ++ info ++ [counter])
    t ++ hkdfBlocks prk info n (counter + 1) t

/-- Embedding of reading `length` bytes from `hkdf.Expand(sha256.New, secret,
info)` (RFC 5869 with L = `length`). -/
def hkdfExpand (prk info : List Nat) (length : Nat) : List Nat :=
  (hkdfBlocks prk info ((length + 31) / 32) 1 []).take length

/-- Byte values of a Lean string (the Go sources only use ASCII labels). -/
def strBytes (s : String) : List Nat := s.data.map Char.toNat

/-- Embedding of `quicV1Salt` (decrypt.go line 15). -/
def quicV1Salt : List Nat :=
  [0x38, 0x76, 0x2c, 0xf7, 0xf5, 0x59, 0x34, 0xb3, 0x4d, 0x17,
   0x9a, 0xe6, 0xa4, 0xc8, 0x0c, 0xad, 0xcc, 0xbb, 0x7f, 0x0a]

/-- Embedding of `deriveSecret(secret []byte, label string, length int)`
(decrypt.go lines 36–48): builds the HKDF-Expand-Label info
`uint16_be(length) ‖ len("tls13 "+label) ‖ "tls13 "+label ‖ 0x00` and
expands. -/
def deriveSecret (secret : List Nat) (label : String) (length : Nat) :
    List Nat :=
  let fullLabel := strBytes ("tls13 " ++ label)
  let info := [length / 256 % 256, length % 256, fullLabel.length] ++
    fullLabel ++ [0]
  hkdfExpand secret info length

/-- Embedding of `type initialKeys struct` (decrypt.go lines 17–22) without
the derived `cipher.Block` object (an AES handle built from `hp`). -/
structure InitialKeys where
  key : List Nat
  iv : List Nat
  hp : List Nat
deriving DecidableEq, Repr

/-- Embedding of `setupKeys(secret []byte)` (decrypt.go lines 50–63). -/
def setupKeys (secret : List Nat) : InitialKeys :=
  { key := deriveSecret secret "quic key" 16,
    iv := deriveSecret secret "quic iv" 12,
    hp := deriveSecret secret "quic hp" 16 }

/-- Embedding of `deriveInitialKeys(destConnID []byte, isServer bool)`
(decrypt.go lines 24–34); the unused `isServer` flag is dropped — the Go
function always returns the client and server key sets in this order. -/
def deriveInitialKeys (destConnID : List Nat) : InitialKeys × InitialKeys :=
  let initialSecret := hkdfExtract quicV1Salt destConnID
  let clientSecret := deriveSecret initialSecret "client in" 32
  let serverSecret := deriveSecret initialSecret "server in" 32
  (setupKeys clientSecret, setupKeys serverSecret)

/-! ## Consumption bounds of the parser

These lemmas back the termination of the coalesced-packet walks below:
every successful parse consumes between 1 byte and the whole input. -/

/-- Bounds of the Initial branch: the packet ends at or after the cursor it
was entered with, inside the input, and the pre-filled header fields are
kept. -/
theorem finishInitial_bounds (data : List Nat) (base : ParsedHeader) (c3 : Nat)
    (h : ParsedHeader) (hp : finishInitial data base c3 = .ok h) :
    c3 ≤ h.fullLength ∧ h.fullLength ≤ data.length ∧
    h.isLongHeader = base.isLongHeader := by
  simp only [finishInitial] at hp
  repeat' split at hp
  all_goals try exact PResult.noConfusion hp
  all_goals injection hp with hp
  all_goals subst hp
  all_goals exact ⟨by dsimp only; omega, by dsimp only; omega, rfl⟩

/-- Bounds of the 0-RTT/Handshake/Retry branch. -/
theorem finishWithLength_bounds (data : List Nat) (base : ParsedHeader)
    (c3 : Nat) (h : ParsedHeader) (hc : c3 ≤ data.length)
    (hp : finishWithLength data base c3 = .ok h) :
    c3 ≤ h.fullLength ∧ h.fullLength ≤ data.length ∧
    h.isLongHeader = base.isLongHeader := by
  simp only [finishWithLength] at hp
  repeat' split at hp
  all_goals injection hp with hp
  all_goals subst hp
  all_goals exact ⟨by dsimp only; omega, by dsimp only; omega, rfl⟩

/-- Bounds of the long-header body: at least the 7 bytes up to the SCID are
consumed, at most the whole input, and the result is long-header. -/
theorem parseLongBody_bounds (data : List Nat) (ptype version : Nat)
    (h : ParsedHeader) (hp : parseLongBody data ptype version = .ok h) :
    7 ≤ h.fullLength ∧ h.fullLength ≤ data.length ∧
    h.isLongHeader = true := by
  simp only [parseLongBody] at hp
  repeat' split at hp
  all_goals try exact PResult.noConfusion hp
  · have hb := finishInitial_bounds _ _ _ _ hp
    dsimp only at hb
    exact ⟨by omega, by omega, hb.2.2⟩
  · have hb := finishWithLength_bounds _ _ _ _ (by omega) hp
    dsimp only at hb
    exact ⟨by omega, by omega, hb.2.2⟩
  · injection hp with hp
    subst hp
    exact ⟨by dsimp only; omega, by dsimp only; omega, rfl⟩

/-- Every successfully parsed packet consumes at least one byte, at most the
whole input, at least 7 bytes when long-header, and exactly the whole input
when short-header. -/
theorem ParsePacket_ok_bounds (data : List Nat) (h : ParsedHeader)
    (hp : ParsePacket data = .ok h) :
    1 ≤ h.fullLength ∧ h.fullLength ≤ data.length ∧
    (h.isLongHeader = true → 7 ≤ h.fullLength) ∧
    (h.isLongHeader = false → h.fullLength = data.length) := by
  simp only [ParsePacket] at hp
  repeat' split at hp
  all_goals try exact PResult.noConfusion hp
  · have hb := parseLongBody_bounds _ _ _ _ hp
    refine ⟨by omega, by omega, fun _ => by omega, fun hf => ?_⟩
    rw [hb.2.2] at hf
    cases hf
  · injection hp with hp
    subst hp
    refine ⟨?_, ?_, ?_, ?_⟩
    · dsimp only; omega
    · dsimp only; omega
    · exact fun hf => Bool.noConfusion hf
    · exact fun _ => rfl

/-! ## Relay forwarding model — `processUDPDatagram` / `handlePacket` /
`handleBackendResponse` (internal/relay, unnamed part_002).

The session table `r.sessions` (a `sync.Map` from the string of the CID bytes
to a `*session`) is modelled as an association list from CID bytes to a
session identifier; a session's dedicated `backendConn` is identified with
that identifier, so a `forward(backendConn, data)` call becomes the event
`(sessionId, data)` in the returned write list.  The parts of `handlePacket`
that do not affect dispatch — migration/`lastSeen` bookkeeping, logging,
`net.ResolveUDPAddr`/`net.DialUDP` and spawning the backend reader — are not
modelled; SNI extraction (`quic.ExtractSNI`, which runs AES-GCM) and route
resolution (`r.resolveTarget`) are oracle parameters.  The iterative
coalesced-packet walks take an explicit iteration budget of one per datagram
byte; `processLoop_budget_irrelevant` and `snoopLoop_budget_irrelevant` below
prove the budget never matters, because every parsed packet consumes at least
one byte (`ParsePacket_fullLength_pos`). -/

/-- Session table: CID bytes to session identifier. -/
abbrev Table := List (List Nat × Nat)

/-- Lookup by CID bytes (`r.sessions.Load`). -/
def lookupTable : Table → List Nat → Option Nat
  | [], _ => none
  | (k', v) :: rest, k => if k' = k then some v else lookupTable rest k

/-- Insert-if-absent (`r.sessions.LoadOrStore`), discarding the
`(actual, loaded)` return like the source does. -/
def loadOrStore (t : Table) (k : List Nat) (v : Nat) : Table :=
  if (lookupTable t k).isSome then t else t ++ [(k, v)]

/-- Unconditional insert (`r.sessions.Store`). -/
def storeTable : Table → List Nat → Nat → Table
  | [], k, v => [(k, v)]
  | (k', v') :: rest, k, v =>
    if k' = k then (k, v) :: rest else (k', v') :: storeTable rest k v

/-- Mutable relay state relevant to dispatch: the session table and a
counter supplying fresh session identifiers (standing for freshly dialled
backend sockets). -/
structure RelayState where
  table : Table
  nextSession : Nat
deriving DecidableEq, Repr

/-- Embedding of `(r *Relay) handlePacket(srcAddr, data, header)` (part_002
lines 104–178), restricted to its dispatch behaviour.  `data` is the slice of
the one packet being handled, exactly as passed by `processUDPDatagram`.
Returns the new state and the writes performed (`forward(backendConn, data)`
events as `(sessionId, bytes)`). -/
def handlePacket (ext : List Nat → Except String (List Nat))
    (res : List Nat → Except String String)
    (st : RelayState) (data : List Nat) (header : ParsedHeader) :
    RelayState × List (Nat × List Nat) :=
  match lookupTable st.table header.dcid with
  | some sess => (st, [(sess, data)])
  | none =>
    if ¬(header.isLongHeader = true ∧ header.ptype = 0) then (st, [])
    else
      match ext data with
      | .error _ => (st, [])
      | .ok sni =>
        match res sni with
        | .error _ => (st, [])
        | .ok _target =>
          let sess := st.nextSession
          ({ table := storeTable st.table header.dcid sess,
             nextSession := sess + 1 },
           [(sess, data)])

/-- Coalesced-packet walk of `processUDPDatagram` (part_002 lines 76–102):
parse the packet at the cursor, hand `data[curr : curr+FullLength]` to
`handlePacket`, advance by `FullLength`, stop after a short-header packet or
when the datagram is exhausted; a parse failure stops the walk (a parser
panic additionally crashes the Go process, which performs no further writes
either). -/
def processLoop (ext : List Nat → Except String (List Nat))
    (res : List Nat → Except String String) :
    Nat → RelayState → List Nat → RelayState × List (Nat × List Nat)
  | 0, st, _ => (st, [])
  | fuel + 1, st, buf =>
    match ParsePacket buf with
    | .ok header =>
      let r1 := handlePacket ext res st (buf.take header.fullLength) header
      if header.isLongHeader = true ∧ header.fullLength < buf.length then
        let r2 := processLoop ext res fuel r1.1 (buf.drop header.fullLength)
        (r2.1, r1.2 ++ r2.2)
      else r1
    | _ => (st, [])

/-- Embedding of `(r *Relay) processUDPDatagram(srcAddr, data)` (part_002
lines 76–102). -/
def processUDPDatagram (ext : List Nat → Except String (List Nat))
    (res : List Nat → Except String String)
    (st : RelayState) (data : List Nat) :
    RelayState × List (Nat × List Nat) :=
  if data.length = 0 then (st, []) else processLoop ext res data.length st data

/-- Per-packet SCID snoop of `handleBackendResponse` (part_002 lines
214–223): a long-header packet's non-empty SCID is inserted-if-absent, and
its 8-byte slice `serverSCID[:8]` too when the SCID is longer than 8 bytes. -/
def snoopHeader (t : Table) (sess : Nat) (header : ParsedHeader) : Table :=
  if header.isLongHeader = true ∧ 0 < header.scid.length then
    let t1 := loadOrStore t header.scid sess
    if 8 < header.scid.length then loadOrStore t1 (header.scid.take 8) sess
    else t1
  else t

/-- Header-walking loop of `handleBackendResponse` (part_002 lines 207–229)
over one backend reply datagram: parse, snoop the SCID, advance by
`FullLength`; stop on a parse failure (the source then just forwards the
blob) or after a short-header packet. -/
def snoopLoop : Nat → Table → Nat → List Nat → Table
  | 0, t, _, _ => t
  | fuel + 1, t, sess, buf =>
    match ParsePacket buf with
    | .ok header =>
      let t' := snoopHeader t sess header
      if header.isLongHeader = true ∧ header.fullLength < buf.length then
        snoopLoop fuel t' sess (buf.drop header.fullLength)
      else t'
    | _ => t

/-- Embedding of the session-table effect of one iteration of
`handleBackendResponse` (part_002 lines 196–241) on one reply datagram `buf`
read from the backend socket of session `sess`: the SCID-snooping walk.
(The subsequent verbatim `WriteToUDP` of the datagram to the client does not
touch the table.) -/
def handleBackendDatagram (t : Table) (sess : Nat) (buf : List Nat) : Table :=
  if buf.length = 0 then t else snoopLoop buf.length t sess buf

/-! ## Session-table and walk lemmas -/

/-- Appending table entries preserves present keys with their values. -/
theorem lookupTable_append_of_isSome (t1 t2 : Table) (k : List Nat)
    (h : (lookupTable t1 k).isSome) :
    lookupTable (t1 ++ t2) k = lookupTable t1 k := by
  induction t1 with
  | nil => simp [lookupTable] at h
  | cons e rest ih =>
    rcases e with ⟨k', v⟩
    by_cases hk : k' = k
    · simp [lookupTable, hk]
    · simp only [lookupTable, if_neg hk] at h ⊢
      exact ih h

/-- A key just appended is found. -/
theorem lookupTable_append_self (t : Table) (k : List Nat) (v : Nat) :
    (lookupTable (t ++ [(k, v)]) k).isSome := by
  induction t with
  | nil => simp [lookupTable]
  | cons e rest ih =>
    rcases e with ⟨k', v'⟩
    by_cases hk : k' = k
    · simp [lookupTable, hk]
    · simpa only [List.cons_append, lookupTable, if_neg hk] using ih

/-- Insert-if-absent of a present key is a no-op, whatever session owns it. -/
theorem loadOrStore_of_isSome (t : Table) (k : List Nat) (v : Nat)
    (h : (lookupTable t k).isSome) : loadOrStore t k v = t := by
  simp [loadOrStore, h]

/-- Insert-if-absent makes its key present. -/
theorem lookup_loadOrStore_self (t : Table) (k : List Nat) (v : Nat) :
    (lookupTable (loadOrStore t k v) k).isSome := by
  unfold loadOrStore
  split
  · assumption
  · exact lookupTable_append_self t k v

/-- Insert-if-absent preserves present keys. -/
theorem loadOrStore_mono (t : Table) (k' : List Nat) (v : Nat) (k : List Nat)
    (h : (lookupTable t k).isSome) :
    (lookupTable (loadOrStore t k' v) k).isSome := by
  unfold loadOrStore
  split
  · exact h
  · rw [lookupTable_append_of_isSome t _ k h]
    exact h

/-- Per-packet snooping preserves present keys. -/
theorem snoopHeader_mono (t : Table) (s : Nat) (h : ParsedHeader)
    (k : List Nat) (hk : (lookupTable t k).isSome) :
    (lookupTable (snoopHeader t s h) k).isSome := by
  unfold snoopHeader
  split
  · split
    · exact loadOrStore_mono _ _ _ _ (loadOrStore_mono _ _ _ _ hk)
    · exact loadOrStore_mono _ _ _ _ hk
  · exact hk

/-- Per-packet snooping registers the SCID, and its 8-byte slice when the
SCID has at least 8 bytes (an exactly-8-byte SCID is its own slice). -/
theorem snoopHeader_keys (t : Table) (s : Nat) (h : ParsedHeader)
    (hl : h.isLongHeader = true) (hs : 0 < h.scid.length) :
    (lookupTable (snoopHeader t s h) h.scid).isSome ∧
    (8 ≤ h.scid.length →
      (lookupTable (snoopHeader t s h) (h.scid.take 8)).isSome) := by
  unfold snoopHeader
  rw [if_pos ⟨hl, hs⟩]
  by_cases h8 : 8 < h.scid.length
  · rw [if_pos h8]
    exact ⟨loadOrStore_mono _ _ _ _ (lookup_loadOrStore_self t _ s),
      fun _ => lookup_loadOrStore_self _ _ s⟩
  · rw [if_neg h8]
    refine ⟨lookup_loadOrStore_self t _ s, fun h8' => ?_⟩
    have : h.scid.take 8 = h.scid := List.take_of_length_le (by omega)
    rw [this]
    exact lookup_loadOrStore_self t _ s

/-- Per-packet snooping is absorbed by any table that already contains every
key it inserts. -/
theorem snoopHeader_absorb (t R : Table) (s : Nat) (h : ParsedHeader)
    (hsub : ∀ k, (lookupTable (snoopHeader t s h) k).isSome →
      (lookupTable R k).isSome) :
    snoopHeader R s h = R := by
  by_cases hc : h.isLongHeader = true ∧ 0 < h.scid.length
  · have hkeys := snoopHeader_keys t s h hc.1 hc.2
    unfold snoopHeader
    rw [if_pos hc]
    have hscid : (lookupTable R h.scid).isSome := hsub _ hkeys.1
    by_cases h8 : 8 < h.scid.length
    · have htk : (lookupTable R (h.scid.take 8)).isSome :=
        hsub _ (hkeys.2 (by omega))
      rw [if_pos h8, loadOrStore_of_isSome _ _ _ hscid,
        loadOrStore_of_isSome _ _ _ htk]
    · rw [if_neg h8, loadOrStore_of_isSome _ _ _ hscid]
  · unfold snoopHeader
    rw [if_neg hc]

/-- The snooping walk preserves present keys. -/
theorem snoopLoop_mono (f : Nat) (t : Table) (s : Nat) (buf : List Nat)
    (k : List Nat) (hk : (lookupTable t k).isSome) :
    (lookupTable (snoopLoop f t s buf) k).isSome := by
  induction f generalizing t buf with
  | zero => exact hk
  | succ f ih =>
    cases hP : ParsePacket buf with
    | ok header =>
      simp only [snoopLoop, hP]
      by_cases hcond : header.isLongHeader = true ∧ header.fullLength < buf.length
      · rw [if_pos hcond]
        exact ih _ _ (snoopHeader_mono t s header k hk)
      · rw [if_neg hcond]
        exact snoopHeader_mono t s header k hk
    | err m => simpa only [snoopLoop, hP] using hk
    | panic m => simpa only [snoopLoop, hP] using hk

/-- The snooping walk is insensitive to its iteration budget once the budget
covers one iteration per input byte, because every parsed packet consumes at
least one byte. -/
theorem snoopLoop_budget_irrelevant (f g : Nat) (t : Table) (s : Nat)
    (buf : List Nat) (hf : buf.length ≤ f) (hg : buf.length ≤ g)
    (hpos : 0 < buf.length) : snoopLoop f t s buf = snoopLoop g t s buf := by
  induction f generalizing g t buf with
  | zero => omega
  | succ f ih =>
    cases g with
    | zero => omega
    | succ g =>
      cases hP : ParsePacket buf with
      | ok header =>
        have hb := ParsePacket_ok_bounds buf header hP
        simp only [snoopLoop, hP]
        by_cases hcond : header.isLongHeader = true ∧
          header.fullLength < buf.length
        · rw [if_pos hcond, if_pos hcond]
          exact ih g _ _ (by simp only [List.length_drop]; omega)
            (by simp only [List.length_drop]; omega)
            (by simp only [List.length_drop]; omega)
        · rw [if_neg hcond, if_neg hcond]
      | err m => simp only [snoopLoop, hP]
      | panic m => simp only [snoopLoop, hP]

/-- Running the snooping walk twice over the same datagram leaves the table
exactly as after one run. -/
theorem snoopLoop_idem (f : Nat) (t : Table) (s : Nat) (buf : List Nat)
    (hf : buf.length ≤ f) :
    snoopLoop f (snoopLoop f t s buf) s buf = snoopLoop f t s buf := by
  induction f generalizing t buf with
  | zero => rfl
  | succ f ih =>
    cases hP : ParsePacket buf with
    | ok header =>
      have hb := ParsePacket_ok_bounds buf header hP
      by_cases hcond : header.isLongHeader = true ∧
        header.fullLength < buf.length
      · have hR : snoopLoop (f + 1) t s buf =
            snoopLoop f (snoopHeader t s header) s
              (buf.drop header.fullLength) := by
          simp only [snoopLoop, hP, if_pos hcond]
        rw [hR]
        simp only [snoopLoop, hP, if_pos hcond]
        rw [snoopHeader_absorb t _ s header
          (fun k hk => snoopLoop_mono f _ s _ k hk)]
        exact ih _ _ (by simp only [List.length_drop]; omega)
      · have hR : snoopLoop (f + 1) t s buf = snoopHeader t s header := by
          simp only [snoopLoop, hP, if_neg hcond]
        rw [hR]
        simp only [snoopLoop, hP, if_neg hcond]
        exact snoopHeader_absorb t _ s header (fun k hk => hk)
    | err m => simp only [snoopLoop, hP]
    | panic m => simp only [snoopLoop, hP]

/-- The forwarding walk is insensitive to its iteration budget once the
budget covers one iteration per input byte. -/
theorem processLoop_budget_irrelevant
    (ext : List Nat → Except String (List Nat))
    (res : List Nat → Except String String) (f g : Nat) (st : RelayState)
    (buf : List Nat) (hf : buf.length ≤ f) (hg : buf.length ≤ g)
    (hpos : 0 < buf.length) :
    processLoop ext res f st buf = processLoop ext res g st buf := by
  induction f generalizing g st buf with
  | zero => omega
  | succ f ih =>
    cases g with
    | zero => omega
    | succ g =>
      cases hP : ParsePacket buf with
      | ok header =>
        have hb := ParsePacket_ok_bounds buf header hP
        simp only [processLoop, hP]
        by_cases hcond : header.isLongHeader = true ∧
          header.fullLength < buf.length
        · rw [if_pos hcond, if_pos hcond,
            ih g _ _ (by simp only [List.length_drop]; omega)
              (by simp only [List.length_drop]; omega)
              (by simp only [List.length_drop]; omega)]
        · rw [if_neg hcond, if_neg hcond]
      | err m => simp only [processLoop, hP]
      | panic m => simp only [processLoop, hP]

/-! ## Concrete data used by counterexamples and witnesses -/

/-- Handshake-type long-header packet, version 1, 1-byte DCID `AA`, explicit
2-byte payload-length. -/
def coalPktA : List Nat := [0xA0, 0, 0, 0, 1, 1, 0xAA, 0, 2, 0xDE, 0xAD]

/-- Same shape with DCID `BB`. -/
def coalPktB : List Nat := [0xA0, 0, 0, 0, 1, 1, 0xBB, 0, 2, 0xBE, 0xEF]

/-- A datagram of two coalesced long-header packets. -/
def coalDatagram : List Nat := coalPktA ++ coalPktB

/-- Parse result of `coalDatagram` (its first packet). -/
def coalHdr : ParsedHeader :=
  { isLongHeader := true, ptype := 2, version := 1, dcid := [0xAA],
    scid := [], payload := [0xDE, 0xAD],
    rawHeader := [0xA0, 0, 0, 0, 1, 1, 0xAA, 0, 2], fullLength := 11 }

/-- Relay state with live sessions for DCIDs `AA` and `BB`. -/
def coalState : RelayState :=
  { table := [([0xAA], 1), ([0xBB], 2)], nextSession := 3 }

/-- SNI-extraction oracle for paths that never reach extraction. -/
def oracleUnused : List Nat → Except String (List Nat) :=
  fun _ => .error "not invoked"

/-- Route-resolution oracle for paths that never resolve. -/
def resolveUnused : List Nat → Except String String :=
  fun _ => .error "not invoked"

/-- Minimal well-formed Initial packet (empty DCID/SCID/token/payload). -/
def miniInitial : List Nat := [0xC0, 0, 0, 0, 1, 0, 0, 0, 0]

/-- Parse result of `miniInitial`. -/
def miniInitialHdr : ParsedHeader :=
  { isLongHeader := true, ptype := 0, version := 1, dcid := [], scid := [],
    payload := [], rawHeader := [0xC0, 0, 0, 0, 1, 0, 0, 0, 0],
    fullLength := 9 }

/-- CRYPTO frame at offset 1 against a fresh reassembler expecting 0. -/
def oooFrame : List Nat := [0x06, 1, 1, 0xAB]

/-- The ClientHello of the repository's own parser test
(`TestExtractSNIFromClientHello`), carrying SNI `example.com`. -/
def sampleClientHello : List Nat :=
  [0x01, 0x00, 0x00, 0x2b, 0x03, 0x03,
   0, 0, 0, 0, 0, 0, 0, 0, 0, 0, 0, 0, 0, 0, 0, 0,
   0, 0, 0, 0, 0, 0, 0, 0, 0, 0, 0, 0, 0, 0, 0, 0,
   0x00, 0x00, 0x02, 0x13, 0x01, 0x01, 0x00,
   0x00, 0x14, 0x00, 0x00, 0x00, 0x10, 0x00, 0x0e, 0x00, 0x00, 0x0b,
   0x65, 0x78, 0x61, 0x6d, 0x70, 0x6c, 0x65, 0x2e, 0x63, 0x6f, 0x6d]

/-- Decrypted payload whose first CRYPTO frame is out of order and whose
second, in-order CRYPTO frame carries the whole `sampleClientHello`. -/
def oooThenGoodPayload : List Nat :=
  oooFrame ++ [0x06, 0x00, 0x40, 67] ++ sampleClientHello

/-- Retry-type packet whose post-SCID byte parses as a 1-byte payload-length
varint of value 1, followed by two bytes. -/
def retryPacket : List Nat := [0xF0, 0, 0, 0, 1, 0, 0, 0x01, 0xAB, 0xCD]

/-- Parse result of `retryPacket`. -/
def retryHdr : ParsedHeader :=
  { isLongHeader := true, ptype := 3, version := 1, dcid := [], scid := [],
    payload := [0xAB], rawHeader := [0xF0, 0, 0, 0, 1, 0, 0, 0x01],
    fullLength := 9 }

/-- Backend reply: one long-header packet with a 9-byte server SCID. -/
def serverReply : List Nat :=
  [0xA0, 0, 0, 0, 1, 0x00, 0x09,
   0xAA, 0xBB, 0xCC, 0xDD, 0xEE, 0xFF, 0x01, 0x02, 0x03, 0x00]

/-- Parse result of `serverReply`. -/
def serverReplyHdr : ParsedHeader :=
  { isLongHeader := true, ptype := 2, version := 1, dcid := [],
    scid := [0xAA, 0xBB, 0xCC, 0xDD, 0xEE, 0xFF, 0x01, 0x02, 0x03],
    payload := [], rawHeader := serverReply, fullLength := 17 }

/-! ## Further helper lemmas for the claims -/

/-- One backend reply registers the SCID of its first packet, and that
SCID's 8-byte slice when it has at least 8 bytes. -/
theorem handleBackendDatagram_registers (t : Table) (s : Nat) (buf : List Nat)
    (hdr : ParsedHeader) (hp : ParsePacket buf = .ok hdr)
    (hl : hdr.isLongHeader = true) (hs : 0 < hdr.scid.length) :
    (lookupTable (handleBackendDatagram t s buf) hdr.scid).isSome ∧
    (8 ≤ hdr.scid.length →
      (lookupTable (handleBackendDatagram t s buf) (hdr.scid.take 8)).isSome) := by
  have hb := ParsePacket_ok_bounds buf hdr hp
  have hkeys := snoopHeader_keys t s hdr hl hs
  simp only [handleBackendDatagram, if_neg (by omega : ¬buf.length = 0)]
  obtain ⟨m, hm⟩ : ∃ m, buf.length = m + 1 := ⟨buf.length - 1, by omega⟩
  rw [hm]
  simp only [snoopLoop, hp]
  by_cases hcond : hdr.isLongHeader = true ∧ hdr.fullLength < buf.length
  · rw [if_pos hcond]
    exact ⟨snoopLoop_mono m _ s _ _ hkeys.1,
      fun h8 => snoopLoop_mono m _ s _ _ (hkeys.2 h8)⟩
  · rw [if_neg hcond]
    exact hkeys

/-- Processing the same backend reply twice leaves the session table as
after processing it once. -/
theorem handleBackendDatagram_idem (t : Table) (s : Nat) (buf : List Nat) :
    handleBackendDatagram (handleBackendDatagram t s buf) s buf =
      handleBackendDatagram t s buf := by
  by_cases h0 : buf.length = 0
  · simp only [handleBackendDatagram, if_pos h0]
  · simp only [handleBackendDatagram, if_neg h0]
    exact snoopLoop_idem buf.length t s buf (le_refl _)

/-- With any budget of at least one iteration per datagram byte, the
coalesced-packet walk computes `processUDPDatagram`: the walk needs at most
`data.length` iterations, i.e. it terminates. -/
theorem processLoop_computes (ext : List Nat → Except String (List Nat))
    (res : List Nat → Except String String) (f : Nat) (st : RelayState)
    (data : List Nat) (hf : data.length ≤ f) :
    processLoop ext res f st data = processUDPDatagram ext res st data := by
  by_cases h0 : data.length = 0
  · have hnil : data = [] := List.length_eq_zero.mp h0
    subst hnil
    simp only [processUDPDatagram, List.length_nil, if_pos rfl]
    cases f with
    | zero => rfl
    | succ f => rfl
  · simp only [processUDPDatagram, if_neg h0]
    exact processLoop_budget_irrelevant ext res f data.length st data hf
      (le_refl _) (by omega)

/-! ## The claims -/

/-- C1 (counterexample): on the datagram `coalPktA ++ coalPktB` of two
coalesced long-header packets whose DCIDs `AA` and `BB` both have live
sessions, the relay performs two writes — each packet's own slice to the
session looked up under that packet's own DCID — and not the single write of
the whole datagram to the first DCID's backend that the claim states. -/
theorem processUDPDatagram_no_whole_datagram_write :
    (processUDPDatagram oracleUnused resolveUnused coalState coalDatagram).2 =
      [(1, coalPktA), (2, coalPktB)] ∧
    (processUDPDatagram oracleUnused resolveUnused coalState coalDatagram).2 ≠
      [(1, coalDatagram)] := by
  decide

/-- C1 (amended): `processUDPDatagram` walks the coalesced packets and
dispatches each one separately under its own DCID: when the first packet is
long-header, its DCID has a session `s`, and further packets follow, the
walk writes `(s, first packet's slice)` and continues independently on the
rest of the datagram — the whole datagram is never written as one unit. -/
theorem processUDPDatagram_per_packet_dispatch
    (ext : List Nat → Except String (List Nat))
    (res : List Nat → Except String String)
    (st : RelayState) (data : List Nat) (hdr : ParsedHeader) (s : Nat)
    (hp : ParsePacket data = .ok hdr) (hl : hdr.isLongHeader = true)
    (hs : lookupTable st.table hdr.dcid = some s)
    (hcoal : hdr.fullLength < data.length) :
    processUDPDatagram ext res st data =
      ((processUDPDatagram ext res st (data.drop hdr.fullLength)).1,
        (s, data.take hdr.fullLength) ::
          (processUDPDatagram ext res st (data.drop hdr.fullLength)).2) := by
  have hb := ParsePacket_ok_bounds data hdr hp
  simp only [processUDPDatagram, if_neg (by omega : ¬data.length = 0),
    if_neg (by rw [List.length_drop]; omega :
      ¬(data.drop hdr.fullLength).length = 0)]
  obtain ⟨m, hm⟩ : ∃ m, data.length = m + 1 := ⟨data.length - 1, by omega⟩
  rw [hm]
  simp only [processLoop, hp, handlePacket, hs]
  rw [if_pos ⟨hl, by omega⟩]
  rw [processLoop_budget_irrelevant ext res m (data.drop hdr.fullLength).length
    st (data.drop hdr.fullLength) (by rw [List.length_drop]; omega)
    (le_refl _) (by rw [List.length_drop]; omega)]
  rfl

/-- C1 (witness): the amended dispatch equation at the concrete coalesced
datagram. -/
theorem processUDPDatagram_per_packet_dispatch_witness :
    processUDPDatagram oracleUnused resolveUnused coalState coalDatagram =
      ((processUDPDatagram oracleUnused resolveUnused coalState
          (coalDatagram.drop 11)).1,
        (1, coalDatagram.take 11) ::
          (processUDPDatagram oracleUnused resolveUnused coalState
            (coalDatagram.drop 11)).2) :=
  processUDPDatagram_per_packet_dispatch oracleUnused resolveUnused coalState
    coalDatagram coalHdr 1 (by decide) rfl (by decide) (by decide)

/-- C2: every short-header input of 1 to 8 bytes makes `ParsePacket` hit the
Go runtime panic of the unchecked slice `data[1:9]` — the code crashes
instead of returning the `short`-kind error the specification promises. -/
theorem ParsePacket_short_input_panics (data : List Nat)
    (h1 : 1 ≤ data.length) (h2 : data.length ≤ 8)
    (h3 : data.getD 0 0 &&& 0x80 = 0) :
    ParsePacket data = .panic "slice bounds out of range" := by
  simp only [ParsePacket]
  rw [if_neg (by omega), if_neg (not_not_intro h3), if_pos (by omega)]

/-- C2 (witness): the single-byte short-header datagram `0x40` panics. -/
theorem ParsePacket_short_input_panics_witness :
    ParsePacket [0x40] = .panic "slice bounds out of range" :=
  ParsePacket_short_input_panics [0x40] (by decide) (by decide) (by decide)

/-- C3 (counterexample): on an Initial packet whose decrypted payload starts
with an out-of-order CRYPTO frame, `HandleFrame` does return the fatal
out-of-order error, but `ExtractSNI` does not report it upward: it swallows
the error, keeps scanning, and returns the generic `SNI not found` error
instead — and when a later in-order frame carries the ClientHello it even
returns that SNI successfully, so the datagram is not dropped at all. -/
theorem ExtractSNI_out_of_order_error_swallowed :
    HandleFrame NewCryptoAssembler oooFrame =
      .error "out of order CRYPTO frame: expected 0, got 1" ∧
    ExtractSNI (fun _ => .ok oooFrame) miniInitial =
      .err "SNI not found in decrypted Initial packet" ∧
    ExtractSNI (fun _ => .ok oooThenGoodPayload) miniInitial =
      .ok [0x65, 0x78, 0x61, 0x6d, 0x70, 0x6c, 0x65, 0x2e, 0x63, 0x6f, 0x6d] := by
  decide

/-- C3 (amended): an out-of-order CRYPTO frame is an error for
`HandleFrame`, but the scan loop of `ExtractSNI` swallows every
`HandleFrame` error: it advances one byte and continues scanning with the
reassembler state unchanged, so the error never reaches the forwarder. -/
theorem scanCryptoFrames_swallows_errors (ca : CryptoAssembler)
    (rest : List Nat) (e : String)
    (he : HandleFrame ca (6 :: rest) = .error e) :
    scanCryptoFrames ca (6 :: rest) = scanCryptoFrames ca rest := by
  simp only [scanCryptoFrames, he]
  rw [if_pos trivial]

/-- C3 (witness): the swallowing equation at the out-of-order frame. -/
theorem scanCryptoFrames_swallows_errors_witness :
    scanCryptoFrames NewCryptoAssembler (6 :: [1, 1, 0xAB]) =
      scanCryptoFrames NewCryptoAssembler [1, 1, 0xAB] :=
  scanCryptoFrames_swallows_errors NewCryptoAssembler [1, 1, 0xAB]
    "out of order CRYPTO frame: expected 0, got 1" (by decide)

/-- C4 (counterexample): the Retry-type packet `retryPacket` parses with
`rawHeader` extending one byte past the SCID (the payload-length varint was
read) and `fullLength = 9`, not the input length 10 — against the claim
that Retry sets `raw_header_len` to the end of the SCID and
`full_length = input length` without reading a varint. -/
theorem ParsePacket_retry_cex :
    ParsePacket retryPacket = .ok retryHdr ∧
    retryHdr.fullLength ≠ retryPacket.length ∧
    retryHdr.rawHeader ≠ retryPacket.take 7 := by
  decide

/-- C4 (amended): Retry packets take the same branch as 0-RTT and
Handshake: the parser attempts a payload-length varint right after the SCID;
when it parses and the indicated payload fits, `rawHeader` runs to just past
the varint and `fullLength` is header-plus-payload (not the input length);
only when the varint read fails does the parser fall back to
`rawHeader` ending at the SCID and `fullLength = input length`. -/
theorem ParsePacket_retry_reads_length_varint :
    (∀ (payLen : Nat) (payload rest : List Nat), payLen < 64 →
      payload.length = payLen →
      ParsePacket
          (0xF0 :: 0 :: 0 :: 0 :: 1 :: 0 :: 0 :: payLen :: (payload ++ rest)) =
        .ok { isLongHeader := true, ptype := 3, version := 1, dcid := [],
              scid := [], payload := payload,
              rawHeader := [0xF0, 0, 0, 0, 1, 0, 0, payLen],
              fullLength := 8 + payLen }) ∧
    ParsePacket [0xF0, 0, 0, 0, 1, 0, 0] =
      .ok { isLongHeader := true, ptype := 3, version := 1, dcid := [],
            scid := [], payload := [],
            rawHeader := [0xF0, 0, 0, 0, 1, 0, 0], fullLength := 7 } := by
  constructor
  · intro payLen payload rest hlt hlen
    have hdiv : payLen / 64 = 0 := Nat.div_eq_of_lt hlt
    have hmod : payLen % 64 = payLen := Nat.mod_eq_of_lt hlt
    have h128 : (240 : Nat) &&& 128 = 128 := by decide
    have h48 : ((240 : Nat) &&& 48) >>> 4 = 3 := by decide
    have h1s : (1 : Nat) <<< 0 = 1 := by decide
    simp only [ParsePacket, parseLongBody, finishWithLength, ReadVarInt,
      List.getD_cons_zero, List.getD_cons_succ, List.length_cons,
      List.drop_succ_cons, List.drop_zero, slice, hdiv, hmod, h128, h48, h1s]
    norm_num
    rw [if_neg (by omega), if_neg (by omega), if_neg (by omega),
      if_neg (by omega), if_neg (by omega), if_pos (by omega), ← hlen,
      List.take_left]
  · decide

/-- C4 (witness): the varint-reading Retry parse at a concrete packet with a
2-byte payload and a trailing byte. -/
theorem ParsePacket_retry_reads_length_varint_witness :
    ParsePacket
        (0xF0 :: 0 :: 0 :: 0 :: 1 :: 0 :: 0 :: 2 :: ([0xDE, 0xAD] ++ [0x99])) =
      .ok { isLongHeader := true, ptype := 3, version := 1, dcid := [],
            scid := [], payload := [0xDE, 0xAD],
            rawHeader := [0xF0, 0, 0, 0, 1, 0, 0, 2], fullLength := 10 } :=
  ParsePacket_retry_reads_length_varint.1 2 [0xDE, 0xAD] [0x99] (by decide)
    (by decide)

/-- C5: whenever `ParsePacket` succeeds — in any branch — the reported
`fullLength` never exceeds the input length, so successive coalesced packets
lie within the datagram. -/
theorem ParsePacket_fullLength_le (data : List Nat) (h : ParsedHeader)
    (hp : ParsePacket data = .ok h) : h.fullLength ≤ data.length :=
  (ParsePacket_ok_bounds data h hp).2.1

/-- C5 (witness): the bound at a concrete Initial packet. -/
theorem ParsePacket_fullLength_le_witness :
    ParsePacket miniInitial = .ok miniInitialHdr ∧
    miniInitialHdr.fullLength ≤ miniInitial.length :=
  ⟨by decide, ParsePacket_fullLength_le miniInitial miniInitialHdr (by decide)⟩

/-- C6: for every reassembler state and well-formed CRYPTO frame (leading
`0x06`, decodable offset/length varints, `length` data bytes present):
offset equal to the expected offset appends the data and advances by
`length`; offset below with bytes extending past the expected offset absorbs
exactly the tail beyond it and sets the expected offset to `offset+length`;
offset below with no such tail changes nothing (the "(if any)" case); a
strictly future offset returns the out-of-order error, and the pure model
returns no new state, so buffer and expected offset are unchanged. -/
theorem HandleFrame_frame_cases (ca : CryptoAssembler) (data : List Nat)
    (off n1 len n2 : Nat)
    (h6 : data.getD 0 0 = 6) (hne : data ≠ [])
    (ho : ReadVarInt (data.drop 1) = .ok (off, n1))
    (hl : ReadVarInt (data.drop (1 + n1)) = .ok (len, n2))
    (hfit : 1 + n1 + n2 + len ≤ data.length) :
    (off = ca.offset →
      HandleFrame ca data =
        .ok ({ buffer := ca.buffer ++ slice data (1 + n1 + n2) (1 + n1 + n2 + len),
               offset := ca.offset + len },
             some (ca.buffer ++ slice data (1 + n1 + n2) (1 + n1 + n2 + len)))) ∧
    (off < ca.offset → ca.offset < off + len →
      HandleFrame ca data =
        .ok ({ buffer := ca.buffer ++
                 (slice data (1 + n1 + n2) (1 + n1 + n2 + len)).drop (ca.offset - off),
               offset := off + len },
             some (ca.buffer ++
               (slice data (1 + n1 + n2) (1 + n1 + n2 + len)).drop (ca.offset - off)))) ∧
    (off < ca.offset → off + len ≤ ca.offset →
      HandleFrame ca data = .ok (ca, some ca.buffer)) ∧
    (ca.offset < off →
      HandleFrame ca data = .error ("out of order CRYPTO frame: expected " ++
        toString ca.offset ++ ", got " ++ toString off)) := by
  have hne' : ¬(data.length < 1 ∨ data.getD 0 0 ≠ 6) := by
    rw [not_or]
    exact ⟨by have := List.length_pos.mpr hne; omega, not_not_intro h6⟩
  refine ⟨fun heq => ?_, fun hlt hov => ?_, fun hlt hno => ?_, fun hgt => ?_⟩
  · simp only [HandleFrame, ho, hl]
    rw [if_neg hne', if_neg (by omega), if_pos heq]
  · simp only [HandleFrame, ho, hl]
    rw [if_neg hne', if_neg (by omega), if_neg (by omega), if_pos hlt,
      if_pos (by omega)]
  · simp only [HandleFrame, ho, hl]
    rw [if_neg hne', if_neg (by omega), if_neg (by omega), if_pos hlt,
      if_neg (by omega)]
  · simp only [HandleFrame, ho, hl]
    rw [if_neg hne', if_neg (by omega), if_neg (by omega), if_neg (by omega)]

/-- C6 (witness): the equal-offset case at a concrete frame — a reassembler
expecting offset 2 with buffer `[0x01]` absorbs a frame at offset 2 of one
byte `0xAB`. -/
theorem HandleFrame_frame_cases_witness :
    HandleFrame ⟨[0x01], 2⟩ [6, 2, 1, 0xAB] =
      .ok (⟨[0x01, 0xAB], 3⟩, some [0x01, 0xAB]) := by
  have h := (HandleFrame_frame_cases ⟨[0x01], 2⟩ [6, 2, 1, 0xAB] 2 1 1 1
    (by decide) (by decide) (by decide) (by decide) (by decide)).1 rfl
  simpa [slice] using h

/-- C7: decoding the canonical QUIC varint encoding of any `v < 2^62` with
`ReadVarInt` yields `v` and the 1/2/4/8-byte length selected by `v`'s
magnitude; and on any input shorter than the length announced by the top two
bits of its first byte, `ReadVarInt` fails with the short-input error. -/
theorem ReadVarInt_encode_roundtrip :
    (∀ v : Nat, v < 4611686018427387904 →
      ReadVarInt (encodeVarInt v) =
        .ok (v, if v < 64 then 1 else if v < 16384 then 2
                else if v < 1073741824 then 4 else 8)) ∧
    (∀ data : List Nat, 0 < data.length →
      data.length < 1 <<< (data.getD 0 0 / 64) →
      ReadVarInt data = .error "data too short for varint") := by
  constructor
  · intro v hv
    by_cases h1 : v < 64
    · rw [if_pos h1]
      have he : encodeVarInt v = [v] := by
        simp only [encodeVarInt]; rw [if_pos h1]
      rw [he]
      have hp : v / 64 = 0 := by omega
      simp only [ReadVarInt, List.getD_cons_zero, List.length_cons,
        List.length_nil, hp]
      norm_num
      omega
    · by_cases h2 : v < 16384
      · rw [if_neg h1, if_pos h2]
        have he : encodeVarInt v = [64 + v / 256, v % 256] := by
          simp only [encodeVarInt]; rw [if_neg h1, if_pos h2]
        rw [he]
        have hp : (64 + v / 256) / 64 = 1 := by omega
        simp only [ReadVarInt, List.getD_cons_zero, List.length_cons,
          List.length_nil, hp]
        norm_num [List.foldl, Nat.shiftLeft_eq]
        omega
      · by_cases h3 : v < 1073741824
        · rw [if_neg h1, if_neg h2, if_pos h3]
          have he : encodeVarInt v =
              [128 + v / 16777216, v / 65536 % 256, v / 256 % 256, v % 256] := by
            simp only [encodeVarInt]; rw [if_neg h1, if_neg h2, if_pos h3]
          rw [he]
          have hp : (128 + v / 16777216) / 64 = 2 := by omega
          simp only [ReadVarInt, List.getD_cons_zero, List.length_cons,
            List.length_nil, hp]
          norm_num [List.foldl, Nat.shiftLeft_eq]
          omega
        · rw [if_neg h1, if_neg h2, if_neg h3]
          have he : encodeVarInt v =
              [192 + v / 72057594037927936, v / 281474976710656 % 256,
               v / 1099511627776 % 256, v / 4294967296 % 256,
               v / 16777216 % 256, v / 65536 % 256, v / 256 % 256,
               v % 256] := by
            simp only [encodeVarInt]; rw [if_neg h1, if_neg h2, if_neg h3]
          rw [he]
          have hp : (192 + v / 72057594037927936) / 64 = 3 := by omega
          simp only [ReadVarInt, List.getD_cons_zero, List.length_cons,
            List.length_nil, hp]
          norm_num [List.foldl, Nat.shiftLeft_eq]
          omega
  · intro data h0 hlen
    simp only [ReadVarInt]
    rw [if_neg (by omega), if_pos hlen]

/-- C7 (witness): round trip at `15293` (the repository's own two-byte test
vector) and short-input failure at the lone byte `0x40`. -/
theorem ReadVarInt_encode_roundtrip_witness :
    ReadVarInt (encodeVarInt 15293) = .ok (15293, 2) ∧
    ReadVarInt [0x40] = .error "data too short for varint" := by
  constructor
  · have h := ReadVarInt_encode_roundtrip.1 15293 (by norm_num)
    simpa using h
  · exact ReadVarInt_encode_roundtrip.2 [0x40] (by decide) (by decide)

set_option maxRecDepth 100000 in
set_option maxHeartbeats 4000000 in
/-- C8: Initial key derivation on the RFC 9001 Appendix A.1 DCID
`8394c8f03e515708` yields the client key `1f369613dd76d5467730efcbe3b1a22d`,
IV `fa044b2f42a3fd3b46fb255c` and header-protection key
`9f50449e04a0e810283a1e9933adedd2`. -/
theorem deriveInitialKeys_rfc9001_vector :
    (deriveInitialKeys [0x83, 0x94, 0xc8, 0xf0, 0x3e, 0x51, 0x57, 0x08]).1 =
      { key := [0x1f, 0x36, 0x96, 0x13, 0xdd, 0x76, 0xd5, 0x46,
                0x77, 0x30, 0xef, 0xcb, 0xe3, 0xb1, 0xa2, 0x2d],
        iv := [0xfa, 0x04, 0x4b, 0x2f, 0x42, 0xa3, 0xfd, 0x3b,
               0x46, 0xfb, 0x25, 0x5c],
        hp := [0x9f, 0x50, 0x44, 0x9e, 0x04, 0xa0, 0xe8, 0x10,
               0x28, 0x3a, 0x1e, 0x99, 0x33, 0xad, 0xed, 0xd2] } := by
  decide

/-- C9: server-SCID snooping uses insert-if-absent semantics — inserting any
already-present CID (same or different owner) leaves the table unchanged;
one backend reply registers its first packet's SCID and that SCID's 8-byte
slice (an 8-byte SCID being its own slice); and processing the same reply
twice equals processing it once. -/
theorem sessionTable_snoop_insert_if_absent :
    (∀ (t : Table) (k : List Nat) (v : Nat),
      (lookupTable t k).isSome → loadOrStore t k v = t) ∧
    (∀ (t : Table) (s : Nat) (buf : List Nat) (hdr : ParsedHeader),
      ParsePacket buf = .ok hdr → hdr.isLongHeader = true →
      0 < hdr.scid.length →
      (lookupTable (handleBackendDatagram t s buf) hdr.scid).isSome ∧
      (8 ≤ hdr.scid.length →
        (lookupTable (handleBackendDatagram t s buf) (hdr.scid.take 8)).isSome)) ∧
    (∀ (t : Table) (s : Nat) (buf : List Nat),
      handleBackendDatagram (handleBackendDatagram t s buf) s buf =
        handleBackendDatagram t s buf) :=
  ⟨loadOrStore_of_isSome,
   fun t s buf hdr hp hl hs => handleBackendDatagram_registers t s buf hdr hp hl hs,
   handleBackendDatagram_idem⟩

/-- C9 (witness): the three parts at concrete inputs — a no-op re-insert, a
backend reply with a 9-byte SCID registering both keys, and idempotent
double processing of that reply. -/
theorem sessionTable_snoop_insert_if_absent_witness :
    loadOrStore [([1], 5)] [1] 9 = [([1], 5)] ∧
    ((lookupTable (handleBackendDatagram [] 7 serverReply)
        serverReplyHdr.scid).isSome ∧
      (8 ≤ serverReplyHdr.scid.length →
        (lookupTable (handleBackendDatagram [] 7 serverReply)
          (serverReplyHdr.scid.take 8)).isSome)) ∧
    handleBackendDatagram (handleBackendDatagram [] 7 serverReply) 7
        serverReply =
      handleBackendDatagram [] 7 serverReply :=
  ⟨sessionTable_snoop_insert_if_absent.1 [([1], 5)] [1] 9 (by decide),
   sessionTable_snoop_insert_if_absent.2.1 [] 7 serverReply serverReplyHdr
     (by decide) rfl (by decide),
   sessionTable_snoop_insert_if_absent.2.2 [] 7 serverReply⟩

/-- C10: the coalesced-packet walk terminates — every successful
`ParsePacket` consumes at least one byte (long headers at least 7, a
short-header packet exactly the remainder, which also ends the walk), and
consequently a budget of one iteration per datagram byte already computes
`processUDPDatagram`. -/
theorem processUDPDatagram_walk_terminates :
    (∀ (data : List Nat) (hdr : ParsedHeader), ParsePacket data = .ok hdr →
      1 ≤ hdr.fullLength ∧
      (hdr.isLongHeader = true → 7 ≤ hdr.fullLength) ∧
      (hdr.isLongHeader = false → hdr.fullLength = data.length)) ∧
    (∀ (ext : List Nat → Except String (List Nat))
      (res : List Nat → Except String String) (f : Nat) (st : RelayState)
      (data : List Nat), data.length ≤ f →
      processLoop ext res f st data = processUDPDatagram ext res st data) :=
  ⟨fun data hdr hp =>
    ⟨(ParsePacket_ok_bounds data hdr hp).1,
     (ParsePacket_ok_bounds data hdr hp).2.2.1,
     (ParsePacket_ok_bounds data hdr hp).2.2.2⟩,
   processLoop_computes⟩

/-- C10 (witness): consumption at the concrete Initial packet and the walk
equation at the concrete coalesced datagram with its exact byte budget. -/
theorem processUDPDatagram_walk_terminates_witness :
    (1 ≤ miniInitialHdr.fullLength ∧
      (miniInitialHdr.isLongHeader = true → 7 ≤ miniInitialHdr.fullLength) ∧
      (miniInitialHdr.isLongHeader = false →
        miniInitialHdr.fullLength = miniInitial.length)) ∧
    processLoop oracleUnused resolveUnused 22 coalState coalDatagram =
      processUDPDatagram oracleUnused resolveUnused coalState coalDatagram :=
  ⟨processUDPDatagram_walk_terminates.1 miniInitial miniInitialHdr (by decide),
   processUDPDatagram_walk_terminates.2 oracleUnused resolveUnused 22
     coalState coalDatagram (by decide)⟩

end Porter
